import Mathlib

/-!
Shallow embedding of the multi-session streaming chat core of the lightbot
repository: the session registry (src/src/hooks/useChatSessions.ts), the
per-session conversation store and streaming controller
(src/src/hooks/useChat.ts, the version keeping a per-session message map in
messagesMapRef), and the incremental text decoder the controller uses.

Modelling conventions:
  - JS strings that only carry identity or UI text stay Lean String; message
    content, which is built by concatenating decoded byte chunks, is a list of
    Unicode code points (List Nat) so that decoding is explicit.
  - The JS Map in messagesMapRef is an association list with the Map.set
    replace-or-append-at-end semantics; Map.get with the `|| []` default of the
    source becomes a total lookup defaulting to [].
  - React useState with functional updaters is explicit state passing; an
    in-flight sendMessage invocation holds the closures it captured at call
    time (in particular the sessionId inside updateMessages), while UI events
    at the await points of the read loop (tab switch, stop, clear) act on the
    current hook state, exactly as the single-threaded event loop interleaves
    them (spec section 5: suspension points are only at network awaits).
  - Nondeterministic primitives (crypto.randomUUID, Date.now, the fetch
    outcome, the chunk byte stream) are parameters of the functions.
-/

/-- Role of a chat message, the `role` field of the Message interface in
src/src/hooks/useChat.ts. -/
inductive Role where
  | user
  | assistant
deriving DecidableEq, Repr

/-- The Message record of src/src/hooks/useChat.ts: id (an opaque unique
value, modelled as Nat), role, content (a sequence of Unicode code points)
and timestamp (Date modelled as Nat). -/
structure Message where
  id : Nat
  role : Role
  content : List Nat
  timestamp : Nat
deriving DecidableEq, Repr

/-- The per-session message map held in messagesMapRef: an association list
from session id to message log, in JS Map insertion order. -/
abbrev SMap := List (String × List Message)

/-- JS `messagesMapRef.current.get(sessionId) || []`: lookup defaulting to
the empty log. -/
def mapGet : SMap → String → List Message
  | [], _ => []
  | p :: rest, k => if p.1 = k then p.2 else mapGet rest k

/-- JS `Map.set`: replace the binding of an existing key in place, append a
new key at the end. -/
def mapSet : SMap → String → List Message → SMap
  | [], k, v => [(k, v)]
  | p :: rest, k, v => if p.1 = k then (k, v) :: rest else p :: mapSet rest k v

/-- The state of one useChat hook instance: the session-keyed map ref, the
visible messages state, the current sessionId prop, the isStreaming and error
states, and the abort controller ref (none when null; some b where b records
whether abort() has been called on it). -/
structure ChatState where
  messagesMap : SMap
  messages : List Message
  sessionId : String
  isStreaming : Bool
  error : Option String
  abortController : Option Bool
deriving DecidableEq, Repr

/-- The updateMessages helper of useChat (lines 163-169): apply the updater to
the current visible messages state, store the result in the map under the
sessionId the helper closed over, and make it the new visible state. The
captured session id is a parameter because an in-flight invocation keeps the
closure from its own call time. -/
def updateMessages (capturedSid : String) (f : List Message → List Message)
    (st : ChatState) : ChatState :=
  let updated := f st.messages
  { st with
    messages := updated
    messagesMap := mapSet st.messagesMap capturedSid updated }

/-- The sessionId prop changing plus the useEffect of useChat (lines 157-160):
the visible messages state is reloaded from the map entry of the newly active
session. -/
def switchTo (sid : String) (st : ChatState) : ChatState :=
  { st with sessionId := sid, messages := mapGet st.messagesMap sid }

/-- stopStreaming (lines 245-248): abort the current controller if one exists
(optional chaining), and set isStreaming to false. -/
def stopStreaming (st : ChatState) : ChatState :=
  match st.abortController with
  | none => { st with isStreaming := false }
  | some _ => { st with abortController := some true, isStreaming := false }

/-- clearMessages (lines 250-264): empty the visible state, truncate the map
entry of the current session, clear the error, then best-effort notify the
backend; the apiPort argument gates the notification and backendFails is its
outcome, and neither influences the resulting state because the catch block
ignores the failure. -/
def clearMessages (apiPort : Option Nat) (backendFails : Bool)
    (st : ChatState) : ChatState :=
  let _ := apiPort
  let _ := backendFails
  { st with
    messages := []
    messagesMap := mapSet st.messagesMap st.sessionId []
    error := none }

/-- The finally block of sendMessage (lines 237-240): setIsStreaming(false)
and abortControllerRef.current = null. -/
def finalizeInvocation (st : ChatState) : ChatState :=
  { st with isStreaming := false, abortController := none }

/-! ### The incremental text decoder

The controller decodes each received byte chunk with
`decoder.decode(value, \x7b stream: true \x7d)` on a single TextDecoder held
across the whole stream, so an incomplete multi-byte sequence at a chunk
boundary is retained and completed by the next chunk. This models the WHATWG
UTF-8 decoder that TextDecoder is specified to be: the state is the partial
code point, how many continuation bytes are still needed and already seen,
and the admissible range of the next byte. -/
structure DecState where
  codepoint : Nat
  needed : Nat
  seen : Nat
  lower : Nat
  upper : Nat
deriving DecidableEq, Repr

/-- The fresh decoder state. -/
def decInit : DecState := { codepoint := 0, needed := 0, seen := 0, lower := 0x80, upper := 0xBF }

/-- Processing one byte in the needed-zero state: ASCII is emitted directly, a
lead byte opens a 2, 3 or 4 byte sequence with the WHATWG boundary
adjustments, anything else emits U+FFFD. -/
def utf8Start (b : Nat) : List Nat × DecState :=
  if b ≤ 0x7F then ([b], decInit)
  else if 0xC2 ≤ b ∧ b ≤ 0xDF then
    ([], { codepoint := b % 0x20, needed := 1, seen := 0, lower := 0x80, upper := 0xBF })
  else if 0xE0 ≤ b ∧ b ≤ 0xEF then
    ([], { codepoint := b % 0x10, needed := 2, seen := 0,
           lower := if b = 0xE0 then 0xA0 else 0x80,
           upper := if b = 0xED then 0x9F else 0xBF })
  else if 0xF0 ≤ b ∧ b ≤ 0xF4 then
    ([], { codepoint := b % 0x8, needed := 3, seen := 0,
           lower := if b = 0xF0 then 0x90 else 0x80,
           upper := if b = 0xF4 then 0x8F else 0xBF })
  else ([0xFFFD], decInit)

/-- One step of the WHATWG UTF-8 decoder: either start a sequence, or consume
a continuation byte, completing the code point when enough bytes were seen; an
out-of-range continuation byte emits U+FFFD and reprocesses the byte as a
sequence start. -/
def utf8Step (d : DecState) (b : Nat) : List Nat × DecState :=
  if d.needed = 0 then utf8Start b
  else if d.lower ≤ b ∧ b ≤ d.upper then
    let cp := d.codepoint * 64 + b % 64
    if d.seen + 1 = d.needed then ([cp], decInit)
    else ([], { codepoint := cp, needed := d.needed, seen := d.seen + 1,
                lower := 0x80, upper := 0xBF })
  else
    let r := utf8Start b
    (0xFFFD :: r.1, r.2)

/-- Feeding a byte sequence to the decoder, accumulating the emitted code
points, and returning the retained state: one decoder.decode call with
stream set to true. -/
def utf8Run (d : DecState) : List Nat → List Nat × DecState
  | [] => ([], d)
  | b :: bs =>
    let r := utf8Step d b
    let rest := utf8Run r.2 bs
    (r.1 ++ rest.1, rest.2)

/-- Decoding a sequence of chunks with the decoder state retained across
calls, as the read loop does: the list of decoded texts, in order. -/
def decodeSeq : DecState → List (List Nat) → List (List Nat)
  | _, [] => []
  | d, bs :: rest =>
    let r := utf8Run d bs
    r.1 :: decodeSeq r.2 rest

/-! ### The read loop of sendMessage -/

/-- The chunk updater of the read loop (lines 224-230): map over the log and
append the chunk to the content of the message whose id is the assistant
placeholder id. -/
def appendChunk (aid : Nat) (chunk : List Nat) (prev : List Message) : List Message :=
  prev.map (fun m => if m.id = aid then { m with content := m.content ++ chunk } else m)

/-- One event at an await point of the read loop: a read resolving with a byte
chunk, a read failing with a non-abort network error, or a UI action run by
the event loop while the read is pending (tab switch, stopStreaming,
clearMessages with its backend outcome). -/
inductive StreamEv where
  | recv (bytes : List Nat)
  | recvError (msg : String)
  | uiSwitch (sid : String)
  | uiStop
  | uiClear (backendFails : Bool)
deriving DecidableEq, Repr

/-- The while loop of sendMessage (lines 218-232) together with its catch and
finally blocks, processing the events of one invocation. The invocation keeps
the captured assistant message id, captured session id and apiPort. A read
resolving after abort() was called rejects with AbortError: the loop exits,
the catch block does not set the error (the name check on line 234), and only
the finally block runs. A non-abort read failure sets the error and ends the
loop the same way. UI actions act on the current hook state and the loop
continues. The event list ending is the done-true read: break, then finally. -/
def runLoop (aid : Nat) (capturedSid : String) (apiPort : Option Nat) :
    DecState → ChatState → List StreamEv → ChatState
  | _, st, [] => finalizeInvocation st
  | d, st, ev :: evs =>
    match ev with
    | .recv bytes =>
      if st.abortController = some true then finalizeInvocation st
      else
        let r := utf8Run d bytes
        runLoop aid capturedSid apiPort r.2
          (updateMessages capturedSid (appendChunk aid r.1) st) evs
    | .recvError m =>
      if st.abortController = some true then finalizeInvocation st
      else finalizeInvocation { st with error := some m }
    | .uiSwitch sid => runLoop aid capturedSid apiPort d (switchTo sid st) evs
    | .uiStop => runLoop aid capturedSid apiPort d (stopStreaming st) evs
    | .uiClear b => runLoop aid capturedSid apiPort d (clearMessages apiPort b st) evs

/-- The outcome of the fetch on line 193: a rejection with a non-abort error
message, or a response with its ok flag and status. -/
inductive FetchOutcome where
  | netError (msg : String)
  | resp (ok : Bool) (status : Nat)
deriving DecidableEq, Repr

/-- sendMessage (lines 171-243). Parameters supply what the environment
chooses: the generated message ids and timestamps, the fetch outcome and the
read-loop events. The sessionId the invocation writes to is read from the
hook state once, at invocation start, because updateMessages closed over it
at call time. With no apiPort it only sets the error and returns. Otherwise
it appends the user message, raises isStreaming, clears the error, installs a
fresh abort controller, and on an ok response appends the empty assistant
placeholder and runs the read loop; a fetch rejection or a non-ok status is
caught, sets the error (the thrown HTTP error message on a non-ok status),
and falls to the finally block. -/
def sendMessage (apiPort : Option Nat) (content : List Nat) (uid aid tsU tsA : Nat)
    (outcome : FetchOutcome) (evs : List StreamEv) (st : ChatState) : ChatState :=
  match apiPort with
  | none => { st with error := some "Sidecar not connected" }
  | some _ =>
    let capturedSid := st.sessionId
    let userMessage : Message := { id := uid, role := .user, content := content, timestamp := tsU }
    let st := updateMessages capturedSid (fun prev => prev ++ [userMessage]) st
    let st := { st with isStreaming := true, error := none, abortController := some false }
    match outcome with
    | .netError m => finalizeInvocation { st with error := some m }
    | .resp ok status =>
      if ok then
        let assistantMessage : Message :=
          { id := aid, role := .assistant, content := [], timestamp := tsA }
        let st := updateMessages capturedSid (fun prev => prev ++ [assistantMessage]) st
        runLoop aid capturedSid apiPort decInit st evs
      else
        finalizeInvocation { st with error := some ("HTTP error! status: " ++ toString status) }

/-! ### The session registry (src/src/hooks/useChatSessions.ts) -/

/-- The TAB_COLORS palette. -/
def TAB_COLORS : List String :=
  ["#3b82f6", "#10b981", "#f59e0b", "#ef4444", "#8b5cf6", "#ec4899", "#06b6d4", "#84cc16"]

/-- getColorForIndex: the palette indexed modulo its length. -/
def getColorForIndex (index : Nat) : String :=
  TAB_COLORS.getD (index % TAB_COLORS.length) ""

/-- The ChatSession record: id (an opaque unique string), display color,
creation timestamp. -/
structure ChatSession where
  id : String
  color : String
  createdAt : Nat
deriving DecidableEq, Repr

/-- The registry state: the session list in creation order and the active
session id. -/
structure RegState where
  sessions : List ChatSession
  activeSessionId : String
deriving DecidableEq, Repr

/-- The initial registry state (lines 38-46): a single session with the first
palette color, active. The generated id and timestamp are parameters. -/
def initialReg (id0 : String) (t0 : Nat) : RegState :=
  { sessions := [{ id := id0, color := TAB_COLORS.getD 0 "", createdAt := t0 }]
    activeSessionId := id0 }

/-- createSession (lines 48-66): pick the palette color for the next index,
skip one ahead if it equals the color of the last session, append the new
session and make it active. The generated id and timestamp are parameters. -/
def createSession (newId : String) (now : Nat) (st : RegState) : RegState :=
  let lastColor := (st.sessions.getLast?).map (fun s => s.color)
  let nextIndex := st.sessions.length
  let color0 := getColorForIndex nextIndex
  let color := if some color0 = lastColor then getColorForIndex (nextIndex + 1) else color0
  let newSession : ChatSession := { id := newId, color := color, createdAt := now }
  { sessions := st.sessions ++ [newSession], activeSessionId := newId }

/-- deleteSession (lines 68-95): filter the id out; if nothing remains, create
a fresh replacement with the first palette color and make it active; else if
the deleted id was the active one, activate the entry of the filtered list at
the index preceding the deleted position (clamped to 0). JS findIndex yields
-1 when the id is absent, modelled on Int; an out-of-bounds JS index access
would store undefined, which cannot occur when the active id is present in
the list, and the lookup default keeps the old active id in that dead branch. -/
def deleteSession (id : String) (freshId : String) (now : Nat) (st : RegState) : RegState :=
  let newSessions := st.sessions.filter (fun s => s.id ≠ id)
  if newSessions.isEmpty then
    let newSession : ChatSession :=
      { id := freshId, color := TAB_COLORS.getD 0 "", createdAt := now }
    { sessions := [newSession], activeSessionId := freshId }
  else if id = st.activeSessionId then
    let idx : Option Nat := st.sessions.findIdx? (fun s => s.id = id)
    let index : Int := match idx with
      | some i => Int.ofNat i
      | none => (-1 : Int)
    let newIndex : Int := if (0 : Int) < index then index - 1 else 0
    { sessions := newSessions
      activeSessionId := ((newSessions.get? newIndex.toNat).map (fun s => s.id)).getD
        st.activeSessionId }
  else
    { st with sessions := newSessions }

/-- switchSession (lines 97-99). -/
def switchSession (id : String) (st : RegState) : RegState :=
  { st with activeSessionId := id }

/-- One registry operation, with the environment-chosen fresh ids and
timestamps as parameters (deleteSession carries the id a replacement would
get if the last session is deleted). -/
inductive RegOp where
  | create (newId : String) (now : Nat)
  | del (id : String) (freshId : String) (now : Nat)
  | switch (id : String)
deriving DecidableEq, Repr

/-- Interpreting one registry operation. -/
def regStep (st : RegState) (op : RegOp) : RegState :=
  match op with
  | .create newId now => createSession newId now st
  | .del id freshId now => deleteSession id freshId now st
  | .switch id => switchSession id st

/-- Running a sequence of registry operations. -/
def regRun (st : RegState) (ops : List RegOp) : RegState :=
  ops.foldl regStep st

/-! ### Concrete evaluation scenarios -/

/-- Hook state with session A visible, an empty store, and no activity. -/
def exInitA : ChatState :=
  { messagesMap := [], messages := [], sessionId := "A", isStreaming := false,
    error := none, abortController := none }

/-- Evaluation of a send on session A whose stream delivers the chunk "Hi"
(bytes 72, 105), after which the user switches to tab B, after which the
chunk "!" (byte 33) arrives and the stream ends. -/
def exSwitchRun : ChatState :=
  sendMessage (some 8000) [104, 105] 1 2 10 11 (.resp true 200)
    [.recv [72, 105], .uiSwitch "B", .recv [33]] exInitA

/-- Hook state with session A visible and a one-message log already stored
for session B. -/
def exInitAB : ChatState :=
  { messagesMap := [("B", [{ id := 9, role := .user, content := [66], timestamp := 0 }])],
    messages := [], sessionId := "A", isStreaming := false,
    error := none, abortController := none }

/-- Evaluation of a send on session A whose stream delivers the chunk "Hi",
after which the user switches to tab B and clears it (with the backend
notification failing), after which the chunk "!" arrives for the stream
still running on A. -/
def exClearRun : ChatState :=
  sendMessage (some 8000) [104] 1 2 10 11 (.resp true 200)
    [.recv [72, 105], .uiSwitch "B", .uiClear true, .recv [33]] exInitAB

/-! ### Helper lemmas -/

/-- Lookup after storing the same key. -/
theorem mapGet_mapSet_self (m : SMap) (k : String) (v : List Message) :
    mapGet (mapSet m k v) k = v := by
  induction m with
  | nil => simp [mapSet, mapGet]
  | cons p rest ih =>
    by_cases h : p.1 = k
    · simp [mapSet, mapGet, h]
    · simp [mapSet, mapGet, h, ih]

/-- Lookup after storing a different key. -/
theorem mapGet_mapSet_ne (m : SMap) (k k' : String) (v : List Message) (h : k' ≠ k) :
    mapGet (mapSet m k v) k' = mapGet m k' := by
  have hk : ¬ (k = k') := fun hh => h hh.symm
  induction m with
  | nil =>
    simp only [mapSet, mapGet]
    rw [if_neg hk]
  | cons p rest ih =>
    simp only [mapSet]
    by_cases hp : p.1 = k
    · rw [if_pos hp]
      have hp' : ¬ (p.1 = k') := by rw [hp]; exact hk
      simp only [mapGet]
      rw [if_neg hk, if_neg hp']
    · rw [if_neg hp]
      simp only [mapGet]
      by_cases hp' : p.1 = k'
      · rw [if_pos hp', if_pos hp']
      · rw [if_neg hp', if_neg hp', ih]

/-- Applying the chunk updater to a log whose last entry is the placeholder
and whose other entries have different ids appends the chunk to the
placeholder content only. -/
theorem appendChunk_snoc (aid : Nat) (chunk : List Nat) (l0 : List Message) (m : Message)
    (h : ∀ x ∈ l0, x.id ≠ aid) (hm : m.id = aid) :
    appendChunk aid chunk (l0 ++ [m]) =
      l0 ++ [{ m with content := m.content ++ chunk }] := by
  unfold appendChunk
  rw [List.map_append]
  congr 1
  · have hcongr : ∀ x ∈ l0,
        (fun q => if q.id = aid then { q with content := q.content ++ chunk } else q) x = id x :=
      fun x hx => by simp [h x hx]
    rw [List.map_congr_left hcongr, List.map_id]
  · simp [hm]

/-- Decoding a concatenation of byte lists: the retained decoder state makes
the second part decode exactly as if the stream had never been split. -/
theorem utf8Run_append (d : DecState) (bs1 bs2 : List Nat) :
    utf8Run d (bs1 ++ bs2) =
      ((utf8Run d bs1).1 ++ (utf8Run (utf8Run d bs1).2 bs2).1,
        (utf8Run (utf8Run d bs1).2 bs2).2) := by
  induction bs1 generalizing d with
  | nil => simp [utf8Run]
  | cons b rest ih => simp [utf8Run, ih, List.append_assoc]

/-- The concatenation of the per-chunk decoded texts equals the decoding of
the concatenated byte stream. -/
theorem decodeSeq_flatten (cs : List (List Nat)) (d : DecState) :
    (decodeSeq d cs).flatten = (utf8Run d cs.flatten).1 := by
  induction cs generalizing d with
  | nil => simp [decodeSeq, utf8Run]
  | cons bs rest ih => simp [decodeSeq, ih, utf8Run_append]

/-- findIdx? over a list whose prefix rejects the predicate and which then
holds a matching element. -/
theorem findIdx?_prefix_cons {α : Type} (p : α → Bool) (l1 l2 : List α) (a : α)
    (h : ∀ x ∈ l1, p x = false) (ha : p a = true) :
    ∀ i, List.findIdx? p (l1 ++ a :: l2) i = some (i + l1.length) := by
  induction l1 with
  | nil => intro i; simp [List.findIdx?_cons, ha]
  | cons q qs ih =>
    intro i
    have hq : p q = false := h q (by simp)
    have hqs : ∀ x ∈ qs, p x = false := fun x hx => h x (by simp [hx])
    simp [List.findIdx?_cons, hq, ih hqs, Nat.add_comm, Nat.add_assoc]
    omega

/-- updateMessages leaves every field except messages and messagesMap alone. -/
theorem updateMessages_fields (capturedSid : String) (f : List Message → List Message)
    (st : ChatState) :
    (updateMessages capturedSid f st).sessionId = st.sessionId ∧
    (updateMessages capturedSid f st).isStreaming = st.isStreaming ∧
    (updateMessages capturedSid f st).error = st.error ∧
    (updateMessages capturedSid f st).abortController = st.abortController := by
  simp [updateMessages]

/-- Processing a prefix of successful reads with no interleaved UI action: the
chunks are decoded in order with the retained decoder state and appended, in
order, to the content of the placeholder message in the log of the captured
session; the map entry of every other session, the error and the streaming
flag are untouched, and the loop goes on with the remaining events. -/
theorem runLoop_recvs (aid : Nat) (S : String) (ap : Option Nat) :
    ∀ (chunks : List (List Nat)) (rest : List StreamEv) (d : DecState) (st : ChatState)
      (l0 : List Message) (c : List Nat) (ts : Nat),
      st.sessionId = S →
      st.abortController = some false →
      st.messages = l0 ++ [{ id := aid, role := .assistant, content := c, timestamp := ts }] →
      (∀ x ∈ l0, x.id ≠ aid) →
      mapGet st.messagesMap S = st.messages →
      ∃ st' : ChatState,
        runLoop aid S ap d st (chunks.map StreamEv.recv ++ rest) =
          runLoop aid S ap (utf8Run d chunks.flatten).2 st' rest ∧
        st'.sessionId = S ∧
        st'.abortController = some false ∧
        st'.messages = l0 ++ [{ id := aid, role := .assistant, content := c ++ (utf8Run d chunks.flatten).1, timestamp := ts }] ∧
        mapGet st'.messagesMap S = st'.messages ∧
        (∀ K, K ≠ S → mapGet st'.messagesMap K = mapGet st.messagesMap K) ∧
        st'.error = st.error ∧
        st'.isStreaming = st.isStreaming := by
  intro chunks
  induction chunks with
  | nil =>
    intro rest d st l0 c ts hsid habort hmsgs hids hmap
    refine ⟨st, ?_, hsid, habort, ?_, hmap, fun K _ => rfl, rfl, rfl⟩
    · simp [utf8Run]
    · simpa [utf8Run] using hmsgs
  | cons bs cs ih =>
    intro rest d st l0 c ts hsid habort hmsgs hids hmap
    have hne : ¬ (st.abortController = some true) := by rw [habort]; simp
    set r := utf8Run d bs with hr
    set st1 := updateMessages S (appendChunk aid r.1) st with hst1
    have hstep : runLoop aid S ap d st ((bs :: cs).map StreamEv.recv ++ rest) =
        runLoop aid S ap r.2 st1 (cs.map StreamEv.recv ++ rest) := by
      simp only [List.map_cons, List.cons_append, runLoop]
      rw [if_neg hne]
      rfl
    have h1sid : st1.sessionId = S := by rw [hst1]; simpa [updateMessages] using hsid
    have h1abort : st1.abortController = some false := by
      rw [hst1]; simpa [updateMessages] using habort
    have h1msgs : st1.messages =
        l0 ++ [{ id := aid, role := .assistant, content := c ++ r.1, timestamp := ts }] := by
      rw [hst1]
      simp only [updateMessages]
      rw [hmsgs, appendChunk_snoc aid r.1 l0 _ hids rfl]
    have h1map : mapGet st1.messagesMap S = st1.messages := by
      rw [hst1]
      simp only [updateMessages]
      rw [mapGet_mapSet_self]
    obtain ⟨st', hrun, h'sid, h'abort, h'msgs, h'map, h'frame, h'err, h'str⟩ :=
      ih rest r.2 st1 l0 (c ++ r.1) ts h1sid h1abort h1msgs hids h1map
    refine ⟨st', ?_, h'sid, h'abort, ?_, h'map, ?_, ?_, ?_⟩
    · rw [hstep, hrun]
      have : (utf8Run d (bs :: cs).flatten).2 = (utf8Run r.2 cs.flatten).2 := by
        simp only [List.flatten_cons]
        rw [utf8Run_append, hr]
      rw [this]
    · rw [h'msgs]
      have : (utf8Run d (bs :: cs).flatten).1 = r.1 ++ (utf8Run r.2 cs.flatten).1 := by
        simp only [List.flatten_cons]
        rw [utf8Run_append, hr]
      rw [this, List.append_assoc]
    · intro K hK
      rw [h'frame K hK, hst1]
      simp only [updateMessages]
      rw [mapGet_mapSet_ne _ _ _ _ hK]
    · rw [h'err, hst1]; simp [updateMessages]
    · rw [h'str, hst1]; simp [updateMessages]

/-- Every registry operation preserves nonemptiness of the session list. -/
theorem regStep_sessions_ne_nil (st : RegState) (op : RegOp) (h : st.sessions ≠ []) :
    (regStep st op).sessions ≠ [] := by
  cases op with
  | create newId now => simp [regStep, createSession]
  | del id freshId now =>
    simp only [regStep, deleteSession]
    split_ifs with h1 h2 <;> simp_all [List.isEmpty_eq_false]
  | switch id => simpa [regStep, switchSession] using h

/-! ### Claim theorems -/

/-- Claim C1 (code bug evaluation). The claim states that every streamed
chunk is written to the log of the originating session no matter how the
visible session is switched mid-stream. The code violates it: in the
concrete run exSwitchRun (send on A, chunk "Hi", switch to B, chunk "!"),
the chunk updater rebases on the now-visible empty message list of B, so the
final store entry of session A is empty — the user message, the placeholder
with "Hi" and the "!" chunk are all gone (B never receives them either, and
the visible list ends empty as well). -/
theorem sendMessage_session_affinity_failure :
    mapGet exSwitchRun.messagesMap "A" = [] ∧
    mapGet exSwitchRun.messagesMap "B" = [] ∧
    exSwitchRun.messages = [] := by decide

/-- Claim C2: from the initial registry state, no sequence of operations
reaches an empty session list, and deleting the only remaining session by
its id yields exactly one freshly created session, which is active. -/
theorem sessions_never_empty :
    (∀ (id0 : String) (t0 : Nat) (ops : List RegOp),
      (regRun (initialReg id0 t0) ops).sessions ≠ []) ∧
    (∀ (st : RegState) (s : ChatSession) (freshId : String) (now : Nat),
      st.sessions = [s] →
      (deleteSession s.id freshId now st).sessions =
        [{ id := freshId, color := TAB_COLORS.getD 0 "", createdAt := now }] ∧
      (deleteSession s.id freshId now st).activeSessionId = freshId) := by
  constructor
  · intro id0 t0 ops
    have hgen : ∀ (l : List RegOp) (st : RegState), st.sessions ≠ [] →
        (regRun st l).sessions ≠ [] := by
      intro l
      induction l with
      | nil => intro st h; simpa [regRun] using h
      | cons op rest ih =>
        intro st h
        have := regStep_sessions_ne_nil st op h
        simpa [regRun] using ih (regStep st op) this
    exact hgen ops _ (by simp [initialReg])
  · intro st s freshId now h
    constructor <;> simp [deleteSession, h]

/-- Witness for sessions_never_empty at a concrete run and a concrete
singleton registry. -/
theorem sessions_never_empty_witness :
    (regRun (initialReg "a" 0) [RegOp.del "a" "b" 1]).sessions ≠ [] ∧
    (deleteSession "a" "z" 7
      { sessions := [{ id := "a", color := "#3b82f6", createdAt := 0 }],
        activeSessionId := "a" }).activeSessionId = "z" :=
  ⟨sessions_never_empty.1 "a" 0 [RegOp.del "a" "b" 1],
   (sessions_never_empty.2
     { sessions := [{ id := "a", color := "#3b82f6", createdAt := 0 }],
       activeSessionId := "a" }
     { id := "a", color := "#3b82f6", createdAt := 0 } "z" 7 rfl).2⟩

/-- Claim C5: once abort has been requested, the read loop observes it at its
next pending read and exits without touching the store: no further chunk is
applied whatever events were still queued, the error field is not set (an
abort is never surfaced as an error, even if the read would have failed), and
the store keeps exactly the content it had when the abort was observed.
stopStreaming itself never touches the store or the error, and the finally
block only resets the flags. -/
theorem stop_cooperative_cancellation :
    (∀ st : ChatState, (stopStreaming st).messages = st.messages ∧
      (stopStreaming st).messagesMap = st.messagesMap ∧
      (stopStreaming st).error = st.error) ∧
    (∀ st : ChatState, st.abortController.isSome = true →
      (stopStreaming st).abortController = some true) ∧
    (∀ (aid : Nat) (S : String) (ap : Option Nat) (d : DecState) (st : ChatState)
      (bytes : List Nat) (evs : List StreamEv), st.abortController = some true →
      runLoop aid S ap d st (StreamEv.recv bytes :: evs) = finalizeInvocation st) ∧
    (∀ (aid : Nat) (S : String) (ap : Option Nat) (d : DecState) (st : ChatState)
      (m : String) (evs : List StreamEv), st.abortController = some true →
      runLoop aid S ap d st (StreamEv.recvError m :: evs) = finalizeInvocation st) ∧
    (∀ st : ChatState, (finalizeInvocation st).messagesMap = st.messagesMap ∧
      (finalizeInvocation st).messages = st.messages ∧
      (finalizeInvocation st).error = st.error) := by
  refine ⟨?_, ?_, ?_, ?_, ?_⟩
  · intro st
    cases h : st.abortController <;> simp [stopStreaming, h]
  · intro st h
    cases hc : st.abortController with
    | none => rw [hc] at h; simp at h
    | some b => simp [stopStreaming, hc]
  · intro aid S ap d st bytes evs h
    simp [runLoop, h]
  · intro aid S ap d st m evs h
    simp [runLoop, h]
  · intro st
    simp [finalizeInvocation]

/-- Witness for stop_cooperative_cancellation: a concrete aborted state whose
pending read resolves with a chunk and one whose pending read fails. -/
theorem stop_cooperative_cancellation_witness :
    runLoop 2 "A" (some 8000) decInit
      { messagesMap := [("A", [])], messages := [], sessionId := "A",
        isStreaming := true, error := none, abortController := some true }
      [StreamEv.recv [65], StreamEv.recv [66]] =
      finalizeInvocation
      { messagesMap := [("A", [])], messages := [], sessionId := "A",
        isStreaming := true, error := none, abortController := some true } ∧
    (stopStreaming
      { messagesMap := [("A", [])], messages := [], sessionId := "A",
        isStreaming := true, error := none, abortController := some false }).abortController =
      some true :=
  ⟨stop_cooperative_cancellation.2.2.1 2 "A" (some 8000) decInit _ [65] [StreamEv.recv [66]] rfl,
   stop_cooperative_cancellation.2.1 _ rfl⟩

/-- Claim C6 counterexample. In the concrete run exClearRun, clearMessages is
invoked on visible session B while a stream on session A is draining: the
next chunk for A is then applied against the emptied visible list, so the
final store entry of A is empty instead of holding the user message and the
assistant content "Hi!" — the concurrent stream targeting a different session
is affected, contrary to the claim. -/
theorem clearMessages_concurrent_stream_affected :
    mapGet exClearRun.messagesMap "A" = [] ∧
    mapGet exClearRun.messagesMap "A" ≠
      [{ id := 1, role := .user, content := [104], timestamp := 10 },
       { id := 2, role := .assistant, content := [72, 105, 33], timestamp := 11 }] := by
  decide

/-- Claim C6 as amended: clearMessages truncates exactly the store entry of
the session it runs on, leaves the entry of every other session unchanged,
and the outcome of the best-effort backend notification (and whether a port
was known at all) never changes the resulting state and is never surfaced;
however the further assertion of the claim, that a concurrent stream
targeting a different session is unaffected, is false
(clearMessages_concurrent_stream_affected). -/
theorem clearMessages_frame (ap ap' : Option Nat) (b b' : Bool) (st : ChatState) :
    clearMessages ap b st = clearMessages ap' b' st ∧
    (clearMessages ap b st).messages = [] ∧
    mapGet (clearMessages ap b st).messagesMap st.sessionId = [] ∧
    (∀ K, K ≠ st.sessionId →
      mapGet (clearMessages ap b st).messagesMap K = mapGet st.messagesMap K) ∧
    (clearMessages ap b st).error = none := by
  refine ⟨rfl, rfl, ?_, ?_, rfl⟩
  · simp [clearMessages, mapGet_mapSet_self]
  · intro K hK
    simp [clearMessages, mapGet_mapSet_ne _ _ _ _ hK]

/-- Witness for clearMessages_frame on a concrete two-session store. -/
theorem clearMessages_frame_witness :
    mapGet (clearMessages (some 8000) true
      { messagesMap := [("A", [{ id := 5, role := .user, content := [65], timestamp := 0 }]),
                        ("B", [{ id := 6, role := .user, content := [66], timestamp := 0 }])],
        messages := [{ id := 5, role := .user, content := [65], timestamp := 0 }],
        sessionId := "A", isStreaming := false, error := none,
        abortController := none }).messagesMap "B" =
      [{ id := 6, role := .user, content := [66], timestamp := 0 }] := by
  have h := (clearMessages_frame (some 8000) (some 8000) true true
    { messagesMap := [("A", [{ id := 5, role := .user, content := [65], timestamp := 0 }]),
                      ("B", [{ id := 6, role := .user, content := [66], timestamp := 0 }])],
      messages := [{ id := 5, role := .user, content := [65], timestamp := 0 }],
      sessionId := "A", isStreaming := false, error := none,
      abortController := none }).2.2.2.1 "B" (by decide)
  rw [h]
  decide

/-- Claim C8: a sendMessage invocation with no known backend port only sets
the user-visible error to the nonempty string and changes nothing else: no
message is appended to any log, the visible list is untouched and the
streaming flag keeps its value (in particular it stays false when it was
false). -/
theorem sendMessage_no_port_short_circuit
    (content : List Nat) (uid aid tsU tsA : Nat) (outcome : FetchOutcome)
    (evs : List StreamEv) (st : ChatState) :
    sendMessage none content uid aid tsU tsA outcome evs st =
      { st with error := some "Sidecar not connected" } ∧
    (sendMessage none content uid aid tsU tsA outcome evs st).messagesMap = st.messagesMap ∧
    (sendMessage none content uid aid tsU tsA outcome evs st).messages = st.messages ∧
    (sendMessage none content uid aid tsU tsA outcome evs st).isStreaming = st.isStreaming ∧
    (sendMessage none content uid aid tsU tsA outcome evs st).error =
      some "Sidecar not connected" ∧
    "Sidecar not connected" ≠ "" :=
  ⟨rfl, rfl, rfl, rfl, rfl, by decide⟩

/-- Claim C9: calling stopStreaming when no stream is active (the abort
controller ref is null, as it is initially and again after every invocation
ran its finally block, and the streaming flag is down) changes nothing. -/
theorem stopStreaming_idle_noop (st : ChatState)
    (hc : st.abortController = none) (hs : st.isStreaming = false) :
    stopStreaming st = st := by
  cases st with
  | mk mm ms sid str err ac =>
    simp only at hc hs
    subst hc hs
    simp [stopStreaming]

/-- Witness for stopStreaming_idle_noop at a concrete idle state. -/
theorem stopStreaming_idle_noop_witness :
    stopStreaming
      { messagesMap := [], messages := [], sessionId := "A", isStreaming := false,
        error := none, abortController := none } =
      { messagesMap := [], messages := [], sessionId := "A", isStreaming := false,
        error := none, abortController := none } :=
  stopStreaming_idle_noop _ rfl rfl

/-- Claim C7: with at least two sessions and distinct ids, deleting the
active session keeps the remaining list in creation order and activates the
session immediately preceding the deleted one, or the first remaining session
when the deleted one was first; deleting an id that no session has changes
nothing. The deleted position is given as the decomposition l1 ++ a :: l2 of
the session list, so the session immediately preceding a in creation order is
the last element of l1. -/
theorem deleteSession_fallback_semantics :
    (∀ (st : RegState) (l1 l2 : List ChatSession) (a : ChatSession) (freshId : String) (now : Nat),
      st.sessions = l1 ++ a :: l2 →
      st.activeSessionId = a.id →
      (∀ x ∈ l1, x.id ≠ a.id) →
      (∀ x ∈ l2, x.id ≠ a.id) →
      l1 ++ l2 ≠ [] →
      (deleteSession a.id freshId now st).sessions = l1 ++ l2 ∧
      (∀ p, l1.getLast? = some p →
        (deleteSession a.id freshId now st).activeSessionId = p.id) ∧
      (l1 = [] → ∀ b tl, l2 = b :: tl →
        (deleteSession a.id freshId now st).activeSessionId = b.id)) ∧
    (∀ (st : RegState) (id freshId : String) (now : Nat),
      (∀ s ∈ st.sessions, s.id ≠ id) →
      st.activeSessionId ∈ st.sessions.map (fun s => s.id) →
      deleteSession id freshId now st = st) := by
  constructor
  · intro st l1 l2 a freshId now hs hact h1 h2 hne
    have hfilter : st.sessions.filter (fun s => s.id ≠ a.id) = l1 ++ l2 := by
      rw [hs, List.filter_append, List.filter_cons]
      have e1 : List.filter (fun s => !decide (s.id = a.id)) l1 = l1 :=
        List.filter_eq_self.mpr (fun x hx => by simpa using h1 x hx)
      have e2 : List.filter (fun s => !decide (s.id = a.id)) l2 = l2 :=
        List.filter_eq_self.mpr (fun x hx => by simpa using h2 x hx)
      simp [e1, e2]
    have hempty : (l1 ++ l2).isEmpty = false := List.isEmpty_eq_false.mpr hne
    have hidx : st.sessions.findIdx? (fun s => s.id = a.id) = some l1.length := by
      rw [hs]
      have h := findIdx?_prefix_cons (fun s => decide (s.id = a.id)) l1 l2 a
        (fun x hx => by simpa using h1 x hx) (by simp) 0
      simpa using h
    simp only [deleteSession]
    rw [hfilter, hempty, hidx, hact]
    simp only [Bool.false_eq_true, if_false, if_pos rfl]
    cases l1 with
    | nil =>
      refine ⟨rfl, ?_, ?_⟩
      · intro p hp; simp at hp
      · intro _ b tl htl
        subst htl
        simp
    | cons q qs =>
      refine ⟨rfl, ?_, ?_⟩
      · intro p hp
        have hlen : (Int.ofNat (q :: qs).length - 1).toNat = qs.length := by
          simp [List.length_cons]
        have hpos : (0 : Int) < Int.ofNat (q :: qs).length := by
          simp [List.length_cons]
        rw [if_pos hpos, hlen]
        have hget : ((q :: qs) ++ l2).get? qs.length = some p := by
          rw [List.get?_append (by simp)]
          rw [List.get?_eq_getElem?]
          have := List.getLast?_eq_getElem? (q :: qs)
          rw [List.length_cons] at this
          simp only [Nat.add_sub_cancel] at this
          rw [← this, hp]
        rw [hget]
        rfl
      · intro hnil
        exact absurd hnil (by simp)
  · intro st id freshId now hall hmem
    have hne' : st.sessions ≠ [] := by
      intro h0
      rw [h0] at hmem
      simp at hmem
    have hfilter : st.sessions.filter (fun s => s.id ≠ id) = st.sessions :=
      List.filter_eq_self.mpr (fun x hx => by simpa using hall x hx)
    have hempty : st.sessions.isEmpty = false := List.isEmpty_eq_false.mpr hne'
    have hactne : ¬ (id = st.activeSessionId) := by
      intro he
      obtain ⟨s, hsmem, hsid⟩ := List.mem_map.mp hmem
      exact hall s hsmem (by rw [hsid, ← he])
    simp only [deleteSession]
    rw [hfilter, hempty]
    simp only [Bool.false_eq_true, if_false, if_neg hactne]

/-- Witness for deleteSession_fallback_semantics: deleting the middle, active
session of three activates the first (its predecessor), and deleting an
unknown id is the identity. -/
theorem deleteSession_fallback_semantics_witness :
    (deleteSession "b" "z" 9
      { sessions := [{ id := "a", color := "c1", createdAt := 0 },
                     { id := "b", color := "c2", createdAt := 1 },
                     { id := "c", color := "c3", createdAt := 2 }],
        activeSessionId := "b" }).activeSessionId = "a" ∧
    deleteSession "x" "z" 9
      { sessions := [{ id := "a", color := "c1", createdAt := 0 }],
        activeSessionId := "a" } =
      { sessions := [{ id := "a", color := "c1", createdAt := 0 }],
        activeSessionId := "a" } :=
  ⟨((deleteSession_fallback_semantics.1
      { sessions := [{ id := "a", color := "c1", createdAt := 0 },
                     { id := "b", color := "c2", createdAt := 1 },
                     { id := "c", color := "c3", createdAt := 2 }],
        activeSessionId := "b" }
      [{ id := "a", color := "c1", createdAt := 0 }]
      [{ id := "c", color := "c3", createdAt := 2 }]
      { id := "b", color := "c2", createdAt := 1 } "z" 9
      rfl rfl (by decide) (by decide) (by decide)).2.1
      { id := "a", color := "c1", createdAt := 0 } rfl),
   (deleteSession_fallback_semantics.2
      { sessions := [{ id := "a", color := "c1", createdAt := 0 }],
        activeSessionId := "a" } "x" "z" 9 (by decide) (by decide))⟩

/-- The user message and the assistant placeholder have ids different from the
placeholder id when the preexisting log does and the two fresh ids differ. -/
theorem ids_snoc_user (st : ChatState) (user : Message) (aid : Nat)
    (hids : ∀ x ∈ st.messages, x.id ≠ aid) (huid : user.id ≠ aid) :
    ∀ x ∈ st.messages ++ [user], x.id ≠ aid := by
  intro x hx
  rcases List.mem_append.mp hx with h | h
  · exact hids x h
  · have : x = user := by simpa using h
    subst this
    exact huid

/-- Claim C3: a send whose response is ok and whose stream delivers the byte
chunks in order, with no interleaved UI event, leaves in the originating
session log the old messages, the user message, and one assistant message
whose content is the concatenation of the decoded chunk texts in exactly the
delivered order; that concatenation equals the decoding of the concatenated
byte stream, so a multi-byte character split across a chunk boundary is
decoded correctly via the retained decoder state. The streaming flag is back
to false and no error is set. -/
theorem sendMessage_chunk_round_trip
    (st : ChatState) (p : Nat) (content : List Nat) (uid aid tsU tsA status : Nat)
    (chunks : List (List Nat))
    (hids : ∀ x ∈ st.messages, x.id ≠ aid) (huid : uid ≠ aid) :
    mapGet (sendMessage (some p) content uid aid tsU tsA (.resp true status)
        (chunks.map StreamEv.recv) st).messagesMap st.sessionId =
      st.messages ++
        [{ id := uid, role := .user, content := content, timestamp := tsU },
         { id := aid, role := .assistant, content := (decodeSeq decInit chunks).flatten, timestamp := tsA }] ∧
    (decodeSeq decInit chunks).flatten = (utf8Run decInit chunks.flatten).1 ∧
    (sendMessage (some p) content uid aid tsU tsA (.resp true status)
        (chunks.map StreamEv.recv) st).messages =
      mapGet (sendMessage (some p) content uid aid tsU tsA (.resp true status)
        (chunks.map StreamEv.recv) st).messagesMap st.sessionId ∧
    (sendMessage (some p) content uid aid tsU tsA (.resp true status)
        (chunks.map StreamEv.recv) st).isStreaming = false ∧
    (sendMessage (some p) content uid aid tsU tsA (.resp true status)
        (chunks.map StreamEv.recv) st).error = none := by
  have huser : ({ id := uid, role := .user, content := content, timestamp := tsU } : Message).id ≠ aid := huid
  set user : Message := { id := uid, role := .user, content := content, timestamp := tsU } with huserdef
  set st3 : ChatState := updateMessages st.sessionId
      (fun prev => prev ++ [{ id := aid, role := .assistant, content := [], timestamp := tsA }])
      { updateMessages st.sessionId (fun prev => prev ++ [user]) st with
        isStreaming := true, error := none, abortController := some false } with hst3
  have hsend : sendMessage (some p) content uid aid tsU tsA (.resp true status)
      (chunks.map StreamEv.recv) st =
      runLoop aid st.sessionId (some p) decInit st3 (chunks.map StreamEv.recv) := rfl
  have hsid : st3.sessionId = st.sessionId := by simp [hst3, updateMessages]
  have hab : st3.abortController = some false := by simp [hst3, updateMessages]
  have hmsgs : st3.messages = (st.messages ++ [user]) ++
      [{ id := aid, role := .assistant, content := [], timestamp := tsA }] := by
    simp [hst3, updateMessages]
  have hids2 : ∀ x ∈ st.messages ++ [user], x.id ≠ aid := ids_snoc_user st user aid hids huser
  have hmapinv : mapGet st3.messagesMap st.sessionId = st3.messages := by
    simp [hst3, updateMessages, mapGet_mapSet_self]
  obtain ⟨st', hrun, h'sid, h'ab, h'msgs, h'map, h'frame, h'err, h'str⟩ :=
    runLoop_recvs aid st.sessionId (some p) chunks [] decInit st3
      (st.messages ++ [user]) [] tsA hsid hab hmsgs hids2 hmapinv
  have hfin : sendMessage (some p) content uid aid tsU tsA (.resp true status)
      (chunks.map StreamEv.recv) st = finalizeInvocation st' := by
    rw [hsend, ← List.append_nil (chunks.map StreamEv.recv), hrun]
    rfl
  have hmgoal : mapGet (finalizeInvocation st').messagesMap st.sessionId =
      st.messages ++
        [user, { id := aid, role := .assistant, content := (decodeSeq decInit chunks).flatten, timestamp := tsA }] := by
    show mapGet st'.messagesMap st.sessionId = _
    rw [h'map, h'msgs, decodeSeq_flatten, List.append_assoc]
    simp
  refine ⟨?_, decodeSeq_flatten chunks decInit, ?_, ?_, ?_⟩
  · rw [hfin, hmgoal, huserdef]
  · rw [hfin]
    show st'.messages = mapGet st'.messagesMap st.sessionId
    rw [h'map]
  · rw [hfin]
    rfl
  · rw [hfin]
    show st'.error = none
    rw [h'err]
    simp [hst3, updateMessages]

/-- Witness for sendMessage_chunk_round_trip: the two-byte character with code
point 233 split across the chunk boundary between [72, 195] and [169] is
reassembled, so the assistant content is [72, 233]. -/
theorem sendMessage_chunk_round_trip_witness :
    mapGet (sendMessage (some 8000) [104] 1 2 10 11 (FetchOutcome.resp true 200)
        ([[72, 195], [169]].map StreamEv.recv) exInitA).messagesMap exInitA.sessionId =
      exInitA.messages ++
        [{ id := 1, role := .user, content := [104], timestamp := 10 },
         { id := 2, role := .assistant, content := (decodeSeq decInit [[72, 195], [169]]).flatten, timestamp := 11 }] :=
  (sendMessage_chunk_round_trip exInitA 8000 [104] 1 2 10 11 200 [[72, 195], [169]]
    (by decide) (by decide)).1

/-- The HTTP error message thrown for a non-ok status is never the empty
string. -/
theorem httpErrorMessage_ne_empty (s : String) : ("HTTP error! status: " ++ s) ≠ "" := by
  intro h
  have hlen := congrArg String.length h
  rw [String.length_append] at hlen
  have h20 : ("HTTP error! status: ").length = 20 := rfl
  have h0 : ("" : String).length = 0 := rfl
  rw [h20, h0] at hlen
  omega

/-- Claim C4: every transport failure — a non-ok HTTP status, a fetch
rejection with a nonempty message, or a mid-stream read failure with a
nonempty message — ends the invocation with the error field holding a
nonempty string, the streaming flag false, and the originating session log
keeping everything appended before the failure: the user message in the two
pre-stream cases, and additionally the assistant message with the already
decoded partial content in the mid-stream case. -/
theorem sendMessage_transport_error :
    (∀ (st : ChatState) (p : Nat) (content : List Nat) (uid aid tsU tsA status : Nat)
       (evs : List StreamEv),
      (sendMessage (some p) content uid aid tsU tsA (.resp false status) evs st).error =
        some ("HTTP error! status: " ++ toString status) ∧
      ("HTTP error! status: " ++ toString status) ≠ "" ∧
      (sendMessage (some p) content uid aid tsU tsA (.resp false status) evs st).isStreaming = false ∧
      mapGet (sendMessage (some p) content uid aid tsU tsA (.resp false status) evs st).messagesMap
          st.sessionId =
        st.messages ++ [{ id := uid, role := .user, content := content, timestamp := tsU }]) ∧
    (∀ (st : ChatState) (p : Nat) (content : List Nat) (uid aid tsU tsA : Nat)
       (m : String) (evs : List StreamEv), m ≠ "" →
      (sendMessage (some p) content uid aid tsU tsA (.netError m) evs st).error = some m ∧
      (sendMessage (some p) content uid aid tsU tsA (.netError m) evs st).isStreaming = false ∧
      mapGet (sendMessage (some p) content uid aid tsU tsA (.netError m) evs st).messagesMap
          st.sessionId =
        st.messages ++ [{ id := uid, role := .user, content := content, timestamp := tsU }]) ∧
    (∀ (st : ChatState) (p : Nat) (content : List Nat) (uid aid tsU tsA status : Nat)
       (m : String) (chunks : List (List Nat)), m ≠ "" →
      (∀ x ∈ st.messages, x.id ≠ aid) → uid ≠ aid →
      (sendMessage (some p) content uid aid tsU tsA (.resp true status)
          (chunks.map StreamEv.recv ++ [StreamEv.recvError m]) st).error = some m ∧
      (sendMessage (some p) content uid aid tsU tsA (.resp true status)
          (chunks.map StreamEv.recv ++ [StreamEv.recvError m]) st).isStreaming = false ∧
      mapGet (sendMessage (some p) content uid aid tsU tsA (.resp true status)
          (chunks.map StreamEv.recv ++ [StreamEv.recvError m]) st).messagesMap st.sessionId =
        st.messages ++
          [{ id := uid, role := .user, content := content, timestamp := tsU },
           { id := aid, role := .assistant, content := (utf8Run decInit chunks.flatten).1, timestamp := tsA }]) := by
  refine ⟨?_, ?_, ?_⟩
  · intro st p content uid aid tsU tsA status evs
    refine ⟨rfl, httpErrorMessage_ne_empty _, rfl, ?_⟩
    show mapGet (mapSet st.messagesMap st.sessionId
      (st.messages ++ [{ id := uid, role := .user, content := content, timestamp := tsU }]))
      st.sessionId = _
    rw [mapGet_mapSet_self]
  · intro st p content uid aid tsU tsA m evs _
    refine ⟨rfl, rfl, ?_⟩
    show mapGet (mapSet st.messagesMap st.sessionId
      (st.messages ++ [{ id := uid, role := .user, content := content, timestamp := tsU }]))
      st.sessionId = _
    rw [mapGet_mapSet_self]
  · intro st p content uid aid tsU tsA status m chunks _ hids huid
    have huser : ({ id := uid, role := .user, content := content, timestamp := tsU } : Message).id ≠ aid := huid
    set user : Message := { id := uid, role := .user, content := content, timestamp := tsU } with huserdef
    set st3 : ChatState := updateMessages st.sessionId
        (fun prev => prev ++ [{ id := aid, role := .assistant, content := [], timestamp := tsA }])
        { updateMessages st.sessionId (fun prev => prev ++ [user]) st with
          isStreaming := true, error := none, abortController := some false } with hst3
    have hsend : sendMessage (some p) content uid aid tsU tsA (.resp true status)
        (chunks.map StreamEv.recv ++ [StreamEv.recvError m]) st =
        runLoop aid st.sessionId (some p) decInit st3
          (chunks.map StreamEv.recv ++ [StreamEv.recvError m]) := rfl
    have hsid : st3.sessionId = st.sessionId := by simp [hst3, updateMessages]
    have hab : st3.abortController = some false := by simp [hst3, updateMessages]
    have hmsgs : st3.messages = (st.messages ++ [user]) ++
        [{ id := aid, role := .assistant, content := [], timestamp := tsA }] := by
      simp [hst3, updateMessages]
    have hids2 : ∀ x ∈ st.messages ++ [user], x.id ≠ aid := ids_snoc_user st user aid hids huser
    have hmapinv : mapGet st3.messagesMap st.sessionId = st3.messages := by
      simp [hst3, updateMessages, mapGet_mapSet_self]
    obtain ⟨st', hrun, h'sid, h'ab, h'msgs, h'map, h'frame, h'err, h'str⟩ :=
      runLoop_recvs aid st.sessionId (some p) chunks [StreamEv.recvError m] decInit st3
        (st.messages ++ [user]) [] tsA hsid hab hmsgs hids2 hmapinv
    have hne : ¬ (st'.abortController = some true) := by rw [h'ab]; simp
    have hfin : sendMessage (some p) content uid aid tsU tsA (.resp true status)
        (chunks.map StreamEv.recv ++ [StreamEv.recvError m]) st =
        finalizeInvocation { st' with error := some m } := by
      rw [hsend, hrun]
      simp only [runLoop]
      rw [if_neg hne]
    refine ⟨?_, ?_, ?_⟩
    · rw [hfin]; rfl
    · rw [hfin]; rfl
    · rw [hfin]
      show mapGet st'.messagesMap st.sessionId = _
      rw [h'map, h'msgs, List.append_assoc]
      simp

/-- Witness for sendMessage_transport_error: an HTTP 500, a fetch rejection,
and a read failure after one chunk, each on a concrete initial state. -/
theorem sendMessage_transport_error_witness :
    (sendMessage (some 8000) [104] 1 2 10 11 (FetchOutcome.resp false 500) [] exInitA).error =
      some ("HTTP error! status: " ++ toString 500) ∧
    (sendMessage (some 8000) [104] 1 2 10 11 (FetchOutcome.netError "Failed to fetch") []
        exInitA).error = some "Failed to fetch" ∧
    (sendMessage (some 8000) [104] 1 2 10 11 (FetchOutcome.resp true 200)
        ([[72]].map StreamEv.recv ++ [StreamEv.recvError "network error"]) exInitA).error =
      some "network error" :=
  ⟨(sendMessage_transport_error.1 exInitA 8000 [104] 1 2 10 11 500 []).1,
   (sendMessage_transport_error.2.1 exInitA 8000 [104] 1 2 10 11 "Failed to fetch" []
     (by decide)).1,
   (sendMessage_transport_error.2.2 exInitA 8000 [104] 1 2 10 11 200 "network error" [[72]]
     (by decide) (by decide) (by decide)).1⟩

/-- Claim C10: on a non-ok HTTP status the assistant placeholder is never
created, because the throw on the status check precedes the placeholder
append: the originating session log gains exactly one message, the user
message, and contains no assistant message that was not already there. -/
theorem sendMessage_non2xx_no_placeholder
    (st : ChatState) (p : Nat) (content : List Nat) (uid aid tsU tsA status : Nat)
    (evs : List StreamEv)
    (hinv : mapGet st.messagesMap st.sessionId = st.messages) :
    mapGet (sendMessage (some p) content uid aid tsU tsA (.resp false status) evs st).messagesMap
        st.sessionId =
      mapGet st.messagesMap st.sessionId ++
        [{ id := uid, role := .user, content := content, timestamp := tsU }] ∧
    ({ id := uid, role := .user, content := content, timestamp := tsU } : Message).role = .user ∧
    (∀ q ∈ mapGet (sendMessage (some p) content uid aid tsU tsA (.resp false status) evs
        st).messagesMap st.sessionId, q.role = .assistant → q ∈ st.messages) := by
  have hmap : mapGet (sendMessage (some p) content uid aid tsU tsA (.resp false status) evs
      st).messagesMap st.sessionId =
      st.messages ++ [{ id := uid, role := .user, content := content, timestamp := tsU }] := by
    show mapGet (mapSet st.messagesMap st.sessionId
      (st.messages ++ [{ id := uid, role := .user, content := content, timestamp := tsU }]))
      st.sessionId = _
    rw [mapGet_mapSet_self]
  refine ⟨by rw [hmap, hinv], rfl, ?_⟩
  intro q hq hrole
  rw [hmap] at hq
  rcases List.mem_append.mp hq with h | h
  · exact h
  · exfalso
    have hqu : q = { id := uid, role := .user, content := content, timestamp := tsU } := by
      simpa using h
    rw [hqu] at hrole
    exact Role.noConfusion hrole

/-- Witness for sendMessage_non2xx_no_placeholder on the empty session A. -/
theorem sendMessage_non2xx_no_placeholder_witness :
    mapGet (sendMessage (some 8000) [104] 1 2 10 11 (FetchOutcome.resp false 500)
        [] exInitA).messagesMap exInitA.sessionId =
      mapGet exInitA.messagesMap exInitA.sessionId ++
        [{ id := 1, role := .user, content := [104], timestamp := 10 }] :=
  (sendMessage_non2xx_no_placeholder exInitA 8000 [104] 1 2 10 11 500 [] rfl).1
